import Mathlib

/-!
Shallow embedding of the ALIBLOG attendance/logbook system
(src/database/db_manager.py, src/utils/qr_generator.py,
src/modules/scanner.py, src/modules/registration.py,
src/modules/admin_panel.py), together with theorems settling the
frozen specification claims about it.

Conventions of the embedding:
* SQLite tables become Lean lists kept in insertion (rowid) order;
  AUTOINCREMENT counters become explicit `next_*` fields.
* Python strings stay `String`; `str.strip()` is modelled by `pyStrip`
  and `str.split("|")` by `splitPipe`, both defined below on the
  character list.
* `datetime.strftime("%H:%M:%S")` values are modelled by the `Tod`
  (time-of-day) structure; the stored TEXT is `Tod.format`.
* Operations that in Python can only fail through an sqlite3 error are
  modelled as total (the storage layer itself is not modelled as
  failing); operations with semantic failure return `Option`/`Bool`
  exactly where the source returns `None`/`False`.
-/

namespace Aliblog

/-! ## Python string primitives -/

/-- Python's whitespace predicate (CPython `Py_UNICODE_ISSPACE`), the
exact set `str.strip()` removes: U+0009..U+000D, U+001C..U+001F, space,
U+0085, U+00A0, U+1680, U+2000..U+200A, U+2028, U+2029, U+202F, U+205F
and U+3000. -/
def pyIsSpace (c : Char) : Bool :=
  let n := c.toNat
  (0x09 ≤ n && n ≤ 0x0D) || (0x1C ≤ n && n ≤ 0x1F) || n == 0x20 ||
  n == 0x85 || n == 0xA0 || n == 0x1680 ||
  (0x2000 ≤ n && n ≤ 0x200A) || n == 0x2028 || n == 0x2029 ||
  n == 0x202F || n == 0x205F || n == 0x3000

/-- Python `str.strip()`: drop Python-whitespace from both ends
(modelled on the character list of the string). -/
def pyStrip (s : String) : String :=
  ⟨(((s.data.dropWhile pyIsSpace).reverse.dropWhile pyIsSpace).reverse)⟩

/-- Python `str.split("|")` on a character list: accumulate the current
field (reversed) and cut at every separator.  Like Python, the result is
never empty: `"".split("|") == [""]`. -/
def splitPipeAux : List Char → List Char → List String
  | [], acc => [⟨acc.reverse⟩]
  | c :: rest, acc =>
    if c = '|' then ⟨acc.reverse⟩ :: splitPipeAux rest []
    else splitPipeAux rest (c :: acc)

/-- Python `s.split("|")`. -/
def splitPipe (s : String) : List String :=
  splitPipeAux s.data []

/-! ## QR codec (src/utils/qr_generator.py) -/

/-- The decoded fields of a QR payload (the dict returned by
`QRCodeGenerator.parse_qr_data`). -/
structure QRData where
  name : String
  id_number : String
  department : String
  user_type : String
deriving DecidableEq, Repr

/-- The pipe-delimited payload written into the QR image by
`QRCodeGenerator.generate_qr_code`:
`f"{name}|{id_number}|{department}|{user_type}"`. -/
def generate_qr_data (name id_number department user_type : String) : String :=
  name ++ "|" ++ id_number ++ "|" ++ department ++ "|" ++ user_type

/-- Source `QRCodeGenerator.parse_qr_data`: strip the scanned string, split on
`"|"`, fail unless exactly 4 parts result. -/
def parse_qr_data (qr_string : String) : Option QRData :=
  match splitPipe (pyStrip qr_string) with
  | [n, i, d, t] => some ⟨n, i, d, t⟩
  | _ => none

/-! ## Time-of-day values -/

/-- A `%H:%M:%S` time-of-day value as produced by `datetime.strftime`. -/
structure Tod where
  hour : Nat
  minute : Nat
  second : Nat
deriving DecidableEq, Repr

/-- Seconds since midnight. -/
def Tod.toSec (t : Tod) : Nat :=
  t.hour * 3600 + t.minute * 60 + t.second

/-- Python `f"{n:02d}"` for a natural number. -/
def pad2 (n : Nat) : String :=
  if n < 10 then "0" ++ toString n else toString n

/-- Python `f"{n:02d}"` for an `int` (the sign counts towards the width,
exactly as in Python). -/
def pad2Int (n : Int) : String :=
  if 0 ≤ n ∧ n < 10 then "0" ++ toString n else toString n

/-- The stored TEXT for a time-of-day (`strftime("%H:%M:%S")`). -/
def Tod.format (t : Tod) : String :=
  pad2 t.hour ++ ":" ++ pad2 t.minute ++ ":" ++ pad2 t.second

/-- The duration string computed in `DatabaseManager.create_time_out`:
`duration_seconds` is the signed difference in whole seconds, and the
three components are Python floor-division/modulo results formatted
`%02d`. -/
def durationString (duration_seconds : Int) : String :=
  let hours := duration_seconds.fdiv 3600
  let minutes := (duration_seconds.emod 3600).fdiv 60
  let seconds := duration_seconds.emod 60
  pad2Int hours ++ ":" ++ pad2Int minutes ++ ":" ++ pad2Int seconds

/-! ## Database rows and state (src/database/db_manager.py) -/

/-- A row of `registered_users`. -/
structure RegisteredUser where
  user_id : Nat
  name : String
  id_number : String
  department : String
  contact_number : String
  user_type : String
  qr_path : String
  registration_date : String
deriving DecidableEq, Repr

/-- A row of `log_records`; `user_id` is a nullable foreign key and
`time_out`/`duration` are NULL while the visit is open. -/
structure LogRecord where
  log_id : Nat
  user_id : Option Nat
  name : String
  department_or_status : String
  time_in : Tod
  time_out : Option Tod
  duration : Option String
  date : String
deriving DecidableEq, Repr

/-- A row of `admin_accounts`. -/
structure AdminAccount where
  admin_id : Nat
  username : String
  password : String
deriving DecidableEq, Repr

/-- The whole SQLite database: the three tables in insertion order plus
their AUTOINCREMENT counters. -/
structure DB where
  admins : List AdminAccount
  users : List RegisteredUser
  logs : List LogRecord
  next_admin_id : Nat
  next_user_id : Nat
  next_log_id : Nat
deriving DecidableEq, Repr

/-- The set of user types accepted by the `CHECK(user_type IN
('Student', 'Teacher', 'Guest'))` constraint of `registered_users`. -/
def validUserType (t : String) : Bool :=
  t == "Student" || t == "Teacher" || t == "Guest"

/-- Source `DatabaseManager.verify_admin`: exact username/password match. -/
def verify_admin (db : DB) (username password : String) : Bool :=
  db.admins.any fun a => a.username == username && a.password == password

/-- Source `DatabaseManager.register_user`: insert a row; the INSERT fails with
`sqlite3.Error` (returning `None`) exactly when the `user_type` CHECK
constraint is violated. -/
def register_user (db : DB) (name id_number department user_type
    contact_number qr_path registration_date : String) : DB × Option Nat :=
  if validUserType user_type then
    let uid := db.next_user_id
    ({ db with
        users := db.users ++
          [⟨uid, name, id_number, department, contact_number, user_type,
            qr_path, registration_date⟩],
        next_user_id := uid + 1 }, some uid)
  else
    (db, none)

/-- Source `DatabaseManager.get_user_by_qr_data`: first row matching both name
and id_number (`fetchone` in rowid order). -/
def get_user_by_qr_data (db : DB) (name id_number : String) :
    Option RegisteredUser :=
  (db.users.filter fun u => u.name == name && u.id_number == id_number).head?

/-- Source `DatabaseManager.check_id_exists`. -/
def check_id_exists (db : DB) (id_number : String) : Bool :=
  db.users.any fun u => u.id_number == id_number

/-- The open log rows of one user: `user_id` matches and `time_out` is
NULL (the WHERE clause of `get_active_log`), in rowid order. -/
def openLogsFor (db : DB) (user_id : Nat) : List LogRecord :=
  db.logs.filter fun l => l.user_id == some user_id && l.time_out == none

/-- Source `DatabaseManager.get_active_log`: among rows with this `user_id` and
NULL `time_out`, the one with the greatest `log_id`
(`ORDER BY log_id DESC LIMIT 1`). -/
def get_active_log (db : DB) (user_id : Nat) : Option LogRecord :=
  (openLogsFor db user_id).foldl
    (fun acc l =>
      match acc with
      | none => some l
      | some m => if m.log_id < l.log_id then some l else some m)
    none

/-- Source `DatabaseManager.create_time_in`: insert an open log row stamped with
the current time and date. -/
def create_time_in (db : DB) (user_id : Nat) (name department_or_status :
    String) (now : Tod) (today : String) : DB × Option Nat :=
  let lid := db.next_log_id
  ({ db with
      logs := db.logs ++
        [⟨lid, some user_id, name, department_or_status, now, none, none,
          today⟩],
      next_log_id := lid + 1 }, some lid)

/-- Source `DatabaseManager.create_time_out`: look up `time_in` for the row,
fail if absent, otherwise set `time_out` to the current time and
`duration` to the formatted signed difference. -/
def create_time_out (db : DB) (log_id : Nat) (now : Tod) : DB × Bool :=
  match (db.logs.filter fun l => l.log_id == log_id).head? with
  | none => (db, false)
  | some l =>
    let d := durationString ((now.toSec : Int) - (l.time_in.toSec : Int))
    ({ db with
        logs := db.logs.map fun l' =>
          if l'.log_id == log_id then
            { l' with time_out := some now, duration := some d }
          else l' }, true)

/-- Source `DatabaseManager.delete_user`: delete the user's log rows, then the
user row; the QR file removal is best-effort and outside the data model;
the operation reports success unconditionally. -/
def delete_user (db : DB) (user_id : Nat) : DB × Bool :=
  ({ db with
      logs := db.logs.filter fun l => !(l.user_id == some user_id),
      users := db.users.filter fun u => !(u.user_id == user_id) }, true)

/-! ## SQL LIKE and string comparison (semantics of the SQLite queries
used by `DatabaseManager.search_logs`) -/

/-- ASCII-case-insensitive character equality, as used by SQLite's
default `LIKE`. -/
def charLikeEq (a b : Char) : Bool :=
  a.toLower == b.toLower

/-- SQLite `LIKE` pattern matching on character lists: `%` matches any
run, `_` any single character, other characters match
ASCII-case-insensitively.  Structured on a fuel argument (every
recursive call shrinks pattern+subject, so `likeMatch` below always
supplies enough). -/
def likeMatchAux : Nat → List Char → List Char → Bool
  | 0, _, _ => false
  | _ + 1, [], [] => true
  | _ + 1, [], _ :: _ => false
  | f + 1, '%' :: p, [] => likeMatchAux f p []
  | f + 1, '%' :: p, c :: s =>
    likeMatchAux f p (c :: s) || likeMatchAux f ('%' :: p) s
  | f + 1, '_' :: p, _ :: s => likeMatchAux f p s
  | _ + 1, _ :: _, [] => false
  | f + 1, a :: p, c :: s => charLikeEq a c && likeMatchAux f p s

/-- SQLite `LIKE` with pattern `p` on subject `s`. -/
def likeMatch (p s : List Char) : Bool :=
  likeMatchAux (p.length + s.length + 1) p s

/-- The `LIKE '%term%'` test applied by `search_logs`. -/
def likeContains (field term : String) : Bool :=
  likeMatch ('%' :: term.data ++ ['%']) field.data

/-- Lexicographic `<=` on code-point lists (SQLite's memcmp order on
UTF-8 text). -/
def charListLe : List Char → List Char → Bool
  | [], _ => true
  | _ :: _, [] => false
  | a :: as, b :: bs =>
    if a.toNat < b.toNat then true
    else if b.toNat < a.toNat then false
    else charListLe as bs

/-- SQLite text `<=` (memcmp order; on UTF-8 this is code-point
lexicographic order). -/
def sqlStrLe (a b : String) : Bool :=
  charListLe a.data b.data

/-! ## search_logs (src/database/db_manager.py) -/

/-- One row of the `search_logs` result set (the dict built per row,
placeholders substituted for NULL columns). -/
structure SearchRow where
  log_id : Nat
  name : String
  department_or_status : String
  time_in : String
  time_out : String
  duration : String
  date : String
  user_type : String
  id_number : String
deriving DecidableEq, Repr

/-- The `LEFT JOIN registered_users u ON l.user_id = u.user_id` for one
log row: the first user with the matching id, if any. -/
def joinUser (db : DB) (l : LogRecord) : Option RegisteredUser :=
  match l.user_id with
  | none => none
  | some uid => (db.users.filter fun u => u.user_id == uid).head?

/-- Python truthiness of an optional string parameter
(`None` and `""` are both falsy). -/
def truthy : Option String → Bool
  | none => false
  | some s => !(s == "")

/-- The WHERE clause of `search_logs` for one joined row: search-term
filter on the chosen field, inclusive date range, and user-type equality
unless the filter is the `"All"` sentinel.  A `LIKE` or `=` against a
NULL joined column is not true, so such rows are excluded. -/
def searchPred (search_term : Option String) (date_from date_to
    user_type_filter : Option String) (search_field : String)
    (l : LogRecord) (u : Option RegisteredUser) : Bool :=
  (match search_term with
   | none => true
   | some t =>
     if t == "" then true
     else if search_field == "name" then likeContains l.name t
     else if search_field == "id_number" then
       (match u with
        | some u => likeContains u.id_number t
        | none => false)
     else if search_field == "department" then
       likeContains l.department_or_status t
     else true) &&
  (match date_from with
   | none => true
   | some d => if d == "" then true else sqlStrLe d l.date) &&
  (match date_to with
   | none => true
   | some d => if d == "" then true else sqlStrLe l.date d) &&
  (match user_type_filter with
   | none => true
   | some f =>
     if f == "" || f == "All" then true
     else
       (match u with
        | some u => u.user_type == f
        | none => false))

/-- Build the result dict for one joined row (NULL `time_out`/`duration`
render as `"---"`, NULL joined columns as `"N/A"`). -/
def searchRowOf (l : LogRecord) (u : Option RegisteredUser) : SearchRow :=
  { log_id := l.log_id
    name := l.name
    department_or_status := l.department_or_status
    time_in := l.time_in.format
    time_out := match l.time_out with | some t => t.format | none => "---"
    duration := match l.duration with | some d => d | none => "---"
    date := l.date
    user_type := match u with | some u => u.user_type | none => "N/A"
    id_number := match u with | some u => u.id_number | none => "N/A" }

/-- The `ORDER BY l.log_id DESC` ordering on result rows. -/
def rowDescOrder (a b : SearchRow) : Prop :=
  b.log_id ≤ a.log_id

instance : DecidableRel rowDescOrder := fun a b =>
  inferInstanceAs (Decidable (b.log_id ≤ a.log_id))

/-- Source `DatabaseManager.search_logs`: left-join the log rows with the user
table, filter by the conjunction of the supplied criteria, and return
the rows in descending `log_id` order. -/
def search_logs (db : DB) (search_term date_from date_to
    user_type_filter : Option String) (search_field : String) :
    List SearchRow :=
  List.insertionSort rowDescOrder <|
    (db.logs.filter fun l =>
      searchPred search_term date_from date_to user_type_filter
        search_field l (joinUser db l)).map
      fun l => searchRowOf l (joinUser db l)

/-! ## Presence state machine (src/modules/scanner.py) -/

/-- The outcome reported by `ScannerWindow.process_qr_scan` (the kind of
status message shown; payload details are read off the database). -/
inductive ScanOutcome where
  /-- Status "No QR code data detected." -/
  | noData
  /-- Status "Invalid QR code format." -/
  | invalidFormat
  /-- Status "User not found in database." -/
  | userNotFound
  /-- Status "TIME-OUT recorded successfully!" (a departure). -/
  | timeOut
  /-- Status "Failed to record Time-Out." -/
  | timeOutFailed
  /-- Status "TIME-IN recorded successfully!" (an arrival). -/
  | timeIn
  /-- Status "Failed to record Time-In." -/
  | timeInFailed
deriving DecidableEq, Repr

/-- Source `ScannerWindow.process_qr_scan`: strip the raw input, decode it,
resolve the user, inspect the ledger for an open log, and either close
it (departure) or open a new one (arrival). -/
def process_qr_scan (db : DB) (input : String) (now : Tod)
    (today : String) : DB × ScanOutcome :=
  let qr_data := pyStrip input
  if qr_data == "" then (db, .noData)
  else
    match parse_qr_data qr_data with
    | none => (db, .invalidFormat)
    | some p =>
      match get_user_by_qr_data db p.name p.id_number with
      | none => (db, .userNotFound)
      | some user =>
        match get_active_log db user.user_id with
        | some al =>
          let r := create_time_out db al.log_id now
          if r.2 then (r.1, .timeOut) else (r.1, .timeOutFailed)
        | none =>
          let r := create_time_in db user.user_id user.name
            user.department now today
          match r.2 with
          | some _ => (r.1, .timeIn)
          | none => (r.1, .timeInFailed)

/-! ## Registration flow (src/modules/registration.py) -/

/-- Source `RegistrationWindow.validate_input`: name required; for non-guests,
id number and department required and the id number must not already be
registered; contact number required for everyone. -/
def validate_input (db : DB) (name id_number department contact
    user_type : String) : Bool :=
  let name := pyStrip name
  let id_number := pyStrip id_number
  let department := pyStrip department
  let contact := pyStrip contact
  if name == "" then false
  else if user_type != "Guest" && id_number == "" then false
  else if user_type != "Guest" && department == "" then false
  else if user_type != "Guest" && check_id_exists db id_number then false
  else if contact == "" then false
  else true

/-- Source `RegistrationWindow.register_user`: validate, then insert the
stripped values (QR generation, a file-system side effect, carries no
data-model state beyond the stored path). -/
def registration_submit (db : DB) (name id_number department contact
    user_type qr_path registration_date : String) : DB × Option Nat :=
  if validate_input db name id_number department contact user_type then
    register_user db (pyStrip name) (pyStrip id_number)
      (pyStrip department) user_type (pyStrip contact) qr_path
      registration_date
  else (db, none)

/-! ## Admin account creation (src/modules/admin_panel.py) -/

/-- The outcome of `AdminCreateAccountWindow.create_account` (which
message box is shown). -/
inductive CreateAccountResult where
  /-- Message "Please enter a username." -/
  | emptyUsername
  /-- Message "Username must be at least 3 characters." -/
  | usernameTooShort
  /-- Message "Please enter a password." -/
  | emptyPassword
  /-- Message "Password must be at least 6 characters." -/
  | passwordTooShort
  /-- Message "Passwords do not match." -/
  | passwordMismatch
  /-- Message "Admin creation requires verification by an existing admin." -/
  | notVerified
  /-- Failure `sqlite3.IntegrityError`: "Username already exists." -/
  | usernameExists
  /-- Message "Admin account created successfully!" -/
  | success
deriving DecidableEq, Repr

/-- Source `AdminCreateAccountWindow.create_account` together with the
`prompt_creator_credentials` verification step: validate the new
credentials, verify an existing admin's stripped credentials via
`verify_admin`, then insert; the UNIQUE constraint on `username` turns a
duplicate into an `IntegrityError` with no row inserted. -/
def create_account (db : DB) (username password confirm verifier_username
    verifier_password : String) : DB × CreateAccountResult :=
  let username := pyStrip username
  let password := pyStrip password
  let confirm := pyStrip confirm
  if username == "" then (db, .emptyUsername)
  else if username.length < 3 then (db, .usernameTooShort)
  else if password == "" then (db, .emptyPassword)
  else if password.length < 6 then (db, .passwordTooShort)
  else if password != confirm then (db, .passwordMismatch)
  else if !(verify_admin db (pyStrip verifier_username)
      (pyStrip verifier_password)) then (db, .notVerified)
  else if db.admins.any (fun a => a.username == username) then
    (db, .usernameExists)
  else
    ({ db with
        admins := db.admins ++ [⟨db.next_admin_id, username, password⟩],
        next_admin_id := db.next_admin_id + 1 }, .success)

/-! ## Auxiliary notions used by the claim statements -/

/-- Holds (as `true`) iff the string does not begin with a
Python-whitespace character (`pyIsSpace`, the class `str.strip()`
removes). -/
def noLeadingWs (s : String) : Bool :=
  match s.data with
  | [] => true
  | c :: _ => !(pyIsSpace c)

/-- Holds (as `true`) iff the string does not end with a
Python-whitespace character (`pyIsSpace`, the class `str.strip()`
removes). -/
def noTrailingWs (s : String) : Bool :=
  match s.data.getLast? with
  | none => true
  | some c => !(pyIsSpace c)

/-- The duration format as the spec words it: the difference in whole
seconds split into hours/minutes/seconds, each zero-padded to two
digits.  Stated over `Nat` (departure not before arrival); compared with
the source-side `durationString`. -/
def specDurationHMS (d : Nat) : String :=
  pad2 (d / 3600) ++ ":" ++ pad2 (d % 3600 / 60) ++ ":" ++ pad2 (d % 60)

/-- The schema invariant enforced by the `user_type` CHECK constraint:
every stored user row carries one of the three known categories. -/
def userTypesOk (db : DB) : Prop :=
  ∀ u ∈ db.users, validUserType u.user_type = true

/-- Iterate the scanner on the same token: `scanIter db T nows dates k`
is the database after `k` consecutive scans of `T`, the `j`-th scan
happening at time `nows j` on date `dates j`. -/
def scanIter (db : DB) (T : String) (nows : Nat → Tod)
    (dates : Nat → String) : Nat → DB
  | 0 => db
  | k + 1 =>
    (process_qr_scan (scanIter db T nows dates k) T (nows k) (dates k)).1

/-! # Lemmas about the string primitives -/

theorem mk_data (s : String) : String.mk s.data = s := rfl

theorem count_pipe_dropWhile (l : List Char) :
    (l.dropWhile pyIsSpace).count '|' = l.count '|' := by
  induction l with
  | nil => rfl
  | cons c t ih =>
    by_cases h : pyIsSpace c
    · have hc : (c == '|') = false := by
        cases hcp : c == '|'
        · rfl
        · rw [beq_iff_eq] at hcp
          subst hcp
          exact absurd h (by decide)
      simp [List.dropWhile_cons, h, ih, List.count_cons, hc]
    · simp [List.dropWhile_cons, h]

theorem count_pipe_pyStrip (s : String) :
    (pyStrip s).data.count '|' = s.data.count '|' := by
  show ((((s.data.dropWhile _).reverse.dropWhile _).reverse).count '|') = _
  rw [List.count_reverse, count_pipe_dropWhile, List.count_reverse,
    count_pipe_dropWhile]

theorem splitPipeAux_length (l acc : List Char) :
    (splitPipeAux l acc).length = l.count '|' + 1 := by
  induction l generalizing acc with
  | nil => rfl
  | cons c t ih =>
    by_cases h : c = '|'
    · subst h
      simp [splitPipeAux, ih, List.count_cons]
    · have hb : (c == '|') = false := by
        cases hcp : c == '|'
        · rfl
        · exact absurd (beq_iff_eq.mp hcp) h
      simp [splitPipeAux, h, ih, List.count_cons, hb]

theorem splitPipe_length (s : String) :
    (splitPipe s).length = s.data.count '|' + 1 :=
  splitPipeAux_length _ _

theorem splitPipeAux_no_pipe (xs : List Char) (h : '|' ∉ xs) :
    ∀ acc, splitPipeAux xs acc = [⟨acc.reverse ++ xs⟩] := by
  induction xs with
  | nil => intro acc; simp [splitPipeAux]
  | cons c t ih =>
    intro acc
    have hc : c ≠ '|' := fun he => h (he ▸ List.mem_cons_self c t)
    have ht : '|' ∉ t := fun hm => h (List.mem_cons_of_mem c hm)
    simp only [splitPipeAux, if_neg (fun he => hc he), ih ht]
    simp [List.reverse_cons, List.append_assoc]

theorem splitPipeAux_pipe (xs : List Char) (h : '|' ∉ xs) :
    ∀ rest acc, splitPipeAux (xs ++ '|' :: rest) acc =
      ⟨acc.reverse ++ xs⟩ :: splitPipeAux rest [] := by
  induction xs with
  | nil => intro rest acc; simp [splitPipeAux]
  | cons c t ih =>
    intro rest acc
    have hc : c ≠ '|' := fun he => h (he ▸ List.mem_cons_self c t)
    have ht : '|' ∉ t := fun hm => h (List.mem_cons_of_mem c hm)
    rw [List.cons_append]
    rw [show splitPipeAux (c :: (t ++ '|' :: rest)) acc
        = splitPipeAux (t ++ '|' :: rest) (c :: acc) from by
      simp [splitPipeAux, hc]]
    rw [ih ht]
    simp [List.reverse_cons, List.append_assoc]

theorem dropWhile_ws_eq_self (l : List Char)
    (h : ∀ c, l.head? = some c → pyIsSpace c = false) :
    l.dropWhile pyIsSpace = l := by
  cases l with
  | nil => rfl
  | cons c t => simp [List.dropWhile_cons, h c rfl]

theorem pyStrip_eq_self (s : String)
    (h1 : ∀ c, s.data.head? = some c → pyIsSpace c = false)
    (h2 : ∀ c, s.data.getLast? = some c → pyIsSpace c = false) :
    pyStrip s = s := by
  unfold pyStrip
  rw [dropWhile_ws_eq_self _ h1]
  rw [dropWhile_ws_eq_self _ (by
    intro c hc
    rw [List.head?_reverse] at hc
    exact h2 c hc)]
  rw [List.reverse_reverse]

theorem noLeadingWs_spec (s : String) (h : noLeadingWs s = true) :
    ∀ c, s.data.head? = some c → pyIsSpace c = false := by
  intro c hc
  unfold noLeadingWs at h
  cases hd : s.data with
  | nil => rw [hd] at hc; exact absurd hc (by simp)
  | cons c0 t0 =>
    rw [hd] at hc h
    have : c0 = c := by simpa using hc
    subst this
    simpa using h

theorem noTrailingWs_spec (s : String) (h : noTrailingWs s = true) :
    ∀ c, s.data.getLast? = some c → pyIsSpace c = false := by
  intro c hc
  unfold noTrailingWs at h
  rw [hc] at h
  simpa using h

/-! # Lemmas about the QR codec -/

theorem generate_qr_data_data (a b c d : String) :
    (generate_qr_data a b c d).data =
      a.data ++ '|' :: (b.data ++ '|' :: (c.data ++ '|' :: d.data)) := by
  show (a ++ "|" ++ b ++ "|" ++ c ++ "|" ++ d).data = _
  simp [String.data_append]

theorem parse_generate_qr_data (a b c d : String)
    (ha : '|' ∉ a.data) (hb : '|' ∉ b.data) (hc : '|' ∉ c.data)
    (hd : '|' ∉ d.data) (hl : noLeadingWs a = true)
    (ht : noTrailingWs d = true) :
    parse_qr_data (generate_qr_data a b c d) = some ⟨a, b, c, d⟩ := by
  have hstrip : pyStrip (generate_qr_data a b c d) =
      generate_qr_data a b c d := by
    apply pyStrip_eq_self
    · intro c0 hc0
      rw [generate_qr_data_data] at hc0
      cases hA : a.data with
      | nil =>
        rw [hA] at hc0
        simp at hc0
        subst hc0
        decide
      | cons x xs =>
        rw [hA] at hc0
        simp at hc0
        have hx := noLeadingWs_spec a hl x (by rw [hA]; rfl)
        rw [← hc0]
        exact hx
    · intro c0 hc0
      rw [generate_qr_data_data] at hc0
      cases hD : d.data with
      | nil =>
        have : (a.data ++ '|' :: (b.data ++ '|' :: (c.data ++ '|' :: d.data)))
            = (a.data ++ '|' :: (b.data ++ '|' :: c.data)) ++ ['|'] := by
          rw [hD]; simp
        rw [this, List.getLast?_concat] at hc0
        have : c0 = '|' := by simpa using hc0.symm
        subst this
        decide
      | cons x xs =>
        have hne : d.data ≠ [] := by rw [hD]; simp
        have : (a.data ++ '|' :: (b.data ++ '|' :: (c.data ++ '|' :: d.data)))
            = (a.data ++ '|' :: (b.data ++ '|' :: (c.data ++ ['|']))) ++ d.data := by
          simp
        rw [this, List.getLast?_append_of_ne_nil _ hne] at hc0
        exact noTrailingWs_spec d ht c0 hc0
  unfold parse_qr_data
  rw [hstrip]
  show (match splitPipe (generate_qr_data a b c d) with
    | [n, i, d, t] => some (QRData.mk n i d t)
    | _ => none) = _
  have hsplit : splitPipe (generate_qr_data a b c d) = [a, b, c, d] := by
    unfold splitPipe
    rw [generate_qr_data_data]
    rw [splitPipeAux_pipe _ ha, splitPipeAux_pipe _ hb, splitPipeAux_pipe _ hc,
      splitPipeAux_no_pipe _ hd]
    simp [mk_data]
  rw [hsplit]

theorem parse_qr_data_not_four (s : String)
    (h : (splitPipe s).length ≠ 4) : parse_qr_data s = none := by
  have hlen : (splitPipe (pyStrip s)).length ≠ 4 := by
    rw [splitPipe_length, count_pipe_pyStrip, ← splitPipe_length]
    exact h
  unfold parse_qr_data
  split
  · next n i d t heq =>
    rw [heq] at hlen
    simp at hlen
  · rfl

/-! # Claim C4 -/

/-- C4, counterexample: the round trip is NOT exact for every choice of
fields free of the separator.  With first field `" x"` (no `'|'` in any
field), decode strips the scanned string, so the name comes back as
`"x"`, not `" x"`. -/
theorem qr_roundtrip_counterexample :
    '|' ∉ (" x" : String).data ∧ '|' ∉ ("b" : String).data ∧
    '|' ∉ ("c" : String).data ∧ '|' ∉ ("d" : String).data ∧
    parse_qr_data (generate_qr_data " x" "b" "c" "d") =
      some ⟨"x", "b", "c", "d"⟩ ∧
    ("x" : String) ≠ " x" := by
  refine ⟨by decide, by decide, by decide, by decide, by decide, by decide⟩

/-- C4, amended: `decode(encode(a,b,c,d))` reproduces the four fields
exactly when none of them contains `'|'` AND the encoded string is not
changed by stripping (the first field does not start, and the last field
does not end, with whitespace); and every string whose split on `'|'`
yields other than 4 segments fails to decode. -/
theorem qr_codec_roundtrip :
    (∀ a b c d : String, '|' ∉ a.data → '|' ∉ b.data → '|' ∉ c.data →
      '|' ∉ d.data → noLeadingWs a = true → noTrailingWs d = true →
      parse_qr_data (generate_qr_data a b c d) = some ⟨a, b, c, d⟩) ∧
    (∀ s : String, (splitPipe s).length ≠ 4 → parse_qr_data s = none) :=
  ⟨parse_generate_qr_data, parse_qr_data_not_four⟩

/-- C4, witness: the round trip at a concrete registration record, and
decode failure on a concrete 2-segment string. -/
theorem qr_codec_roundtrip_witness :
    parse_qr_data
        (generate_qr_data "Juan Dela Cruz" "2021-00001" "Computer Science"
          "Student") =
      some ⟨"Juan Dela Cruz", "2021-00001", "Computer Science", "Student"⟩ ∧
    parse_qr_data "a|b" = none :=
  ⟨qr_codec_roundtrip.1 "Juan Dela Cruz" "2021-00001" "Computer Science"
      "Student" (by decide) (by decide) (by decide) (by decide) (by decide)
      (by decide),
    qr_codec_roundtrip.2 "a|b" (by decide)⟩

/-! # Lemmas about the duration computation -/

theorem pad2Int_ofNat (k : Nat) : pad2Int (k : Int) = pad2 k := by
  unfold pad2Int pad2
  by_cases h : k < 10
  · rw [if_pos ⟨by positivity, by exact_mod_cast h⟩, if_pos h]
    rfl
  · rw [if_neg (fun hx => h (by exact_mod_cast hx.2)), if_neg h]
    rfl

theorem int_fdiv_ofNat (m n : Nat) :
    ((m : Int)).fdiv ((n : Int)) = ((m / n : Nat) : Int) := by
  rw [Int.fdiv_eq_tdiv (by positivity) (by positivity)]
  exact (Int.ofNat_tdiv m n).symm

theorem durationString_ofNat (d : Nat) :
    durationString ((d : Nat) : Int) = specDurationHMS d := by
  unfold durationString specDurationHMS
  have h1 : ((d : Nat) : Int).fdiv 3600 = (((d / 3600 : Nat)) : Int) :=
    int_fdiv_ofNat d 3600
  have h2 : ((d : Nat) : Int).emod 3600 = (((d % 3600 : Nat)) : Int) := rfl
  have h3 : (((d % 3600 : Nat)) : Int).fdiv 60 =
      (((d % 3600 / 60 : Nat)) : Int) := int_fdiv_ofNat (d % 3600) 60
  have h4 : ((d : Nat) : Int).emod 60 = (((d % 60 : Nat)) : Int) := rfl
  rw [h1, h2, h3, h4]
  simp only [pad2Int_ofNat]

theorem filter_log_id_unique (L : List LogRecord) (lid : Nat)
    (hpw : L.Pairwise fun a b => a.log_id ≠ b.log_id) (l : LogRecord)
    (hmem : l ∈ L) (hl : l.log_id = lid) :
    L.filter (fun x => x.log_id == lid) = [l] := by
  induction L with
  | nil => cases hmem
  | cons x t ih =>
    rw [List.pairwise_cons] at hpw
    rcases List.mem_cons.mp hmem with rfl | hmt
    · rw [List.filter_cons, if_pos (by simp [hl])]
      have hnil : t.filter (fun y => y.log_id == lid) = [] :=
        List.filter_eq_nil_iff.mpr fun y hy => by
          simp only [beq_iff_eq]
          intro he
          exact (hpw.1 y hy) (by rw [hl, he])
      rw [hnil]
    · rw [List.filter_cons]
      have hx : ¬((x.log_id == lid) = true) := by
        simp only [beq_iff_eq]
        intro he
        exact (hpw.1 l hmt) (by rw [he, hl])
      rw [if_neg hx]
      exact ih hpw.2 hmt

/-! # Claim C3 -/

/-- C3: when the visit row exists (log ids being unique) and the
departure time is not before the stored arrival time, `create_time_out`
reports success, sets `time_out` to the current time and `duration` to
the difference in whole seconds formatted as zero-padded HH:MM:SS.  When
no row has the given log id, it returns failure and leaves the database
unchanged.  Concretely, arrival 09:00:00 with departure 09:01:30 yields
duration "00:01:30". -/
theorem create_time_out_spec :
    (∀ db log_id now, (∀ l ∈ db.logs, l.log_id ≠ log_id) →
      create_time_out db log_id now = (db, false)) ∧
    (∀ db log_id now l,
      db.logs.Pairwise (fun a b => a.log_id ≠ b.log_id) →
      l ∈ db.logs → l.log_id = log_id →
      l.time_in.toSec ≤ now.toSec →
      (create_time_out db log_id now).2 = true ∧
      ∀ l' ∈ (create_time_out db log_id now).1.logs, l'.log_id = log_id →
        l'.time_out = some now ∧
        l'.duration = some (specDurationHMS (now.toSec - l.time_in.toSec))) ∧
    ((create_time_out
        ⟨[], [],
          [⟨1, some 1, "Juan Dela Cruz", "Computer Science", ⟨9, 0, 0⟩,
            none, none, "2024-01-05"⟩], 1, 2, 2⟩
        1 ⟨9, 1, 30⟩).1.logs.map (fun l => (l.time_out, l.duration)) =
      [(some ⟨9, 1, 30⟩, some "00:01:30")]) := by
  refine ⟨?_, ?_, by decide⟩
  · intro db lid now h
    have hnil : (db.logs.filter fun l => l.log_id == lid) = [] :=
      List.filter_eq_nil_iff.mpr fun l hl => by simpa using h l hl
    simp [create_time_out, hnil]
  · intro db lid now l hpw hmem hlid hle
    have hone : (db.logs.filter fun x => x.log_id == lid) = [l] :=
      filter_log_id_unique db.logs lid hpw l hmem hlid
    have hdur : durationString ((now.toSec : Int) - (l.time_in.toSec : Int))
        = specDurationHMS (now.toSec - l.time_in.toSec) := by
      rw [show (now.toSec : Int) - (l.time_in.toSec : Int)
          = ((now.toSec - l.time_in.toSec : Nat) : Int) from
        (Int.ofNat_sub hle).symm]
      exact durationString_ofNat _
    constructor
    · simp [create_time_out, hone]
    · intro l' hl' hlid'
      simp only [create_time_out, hone, List.head?_cons] at hl'
      rw [List.mem_map] at hl'
      obtain ⟨x, hx, hfx⟩ := hl'
      by_cases hxb : (x.log_id == lid) = true
      · rw [if_pos hxb] at hfx
        subst hfx
        exact ⟨rfl, by simp [hdur]⟩
      · rw [if_neg hxb] at hfx
        subst hfx
        exact absurd (by simp [hlid']) hxb

/-- C3, witness: failure on an empty ledger, and success with correct
timestamp and duration on a concrete one-row ledger. -/
theorem create_time_out_spec_witness :
    create_time_out ⟨[], [], [], 1, 1, 1⟩ 7 ⟨10, 0, 0⟩ =
      (⟨[], [], [], 1, 1, 1⟩, false) ∧
    ((create_time_out
        ⟨[], [],
          [⟨1, some 1, "Juan Dela Cruz", "Computer Science", ⟨9, 0, 0⟩,
            none, none, "2024-01-05"⟩], 1, 2, 2⟩
        1 ⟨9, 1, 30⟩).2 = true) :=
  ⟨create_time_out_spec.1 ⟨[], [], [], 1, 1, 1⟩ 7 ⟨10, 0, 0⟩ (by decide),
    (create_time_out_spec.2.1
        ⟨[], [],
          [⟨1, some 1, "Juan Dela Cruz", "Computer Science", ⟨9, 0, 0⟩,
            none, none, "2024-01-05"⟩], 1, 2, 2⟩
        1 ⟨9, 1, 30⟩
        ⟨1, some 1, "Juan Dela Cruz", "Computer Science", ⟨9, 0, 0⟩,
          none, none, "2024-01-05"⟩
        (by decide) (by decide) (by decide) (by decide)).1⟩

/-! # Claim C10 -/

/-- C10: `delete_user` reports success whatever identity id it is given;
when no user row and no log row carry that id, the cascading deletes are
no-ops and the database is unchanged (the model has no storage-level
errors, the only source of a `False` return in the source). -/
theorem delete_user_total :
    (∀ db user_id, (delete_user db user_id).2 = true) ∧
    (∀ db user_id, (∀ u ∈ db.users, u.user_id ≠ user_id) →
      (∀ l ∈ db.logs, l.user_id ≠ some user_id) →
      (delete_user db user_id).1 = db) := by
  constructor
  · intro db uid
    rfl
  · intro db uid hu hl
    show DB.mk db.admins
        (db.users.filter fun u => !(u.user_id == uid))
        (db.logs.filter fun l => !(l.user_id == some uid))
        db.next_admin_id db.next_user_id db.next_log_id = db
    rw [List.filter_eq_self.mpr fun u hmem => by simpa using hu u hmem]
    rw [List.filter_eq_self.mpr fun l hmem => by simpa using hl l hmem]

/-- C10, witness: deleting a nonexistent user id from a concrete
database succeeds and changes nothing. -/
theorem delete_user_total_witness :
    (delete_user
        ⟨[], [⟨1, "Juan", "2021-1", "CS", "c", "Student", "q", "r"⟩], [],
          1, 2, 1⟩ 99).2 = true ∧
    (delete_user
        ⟨[], [⟨1, "Juan", "2021-1", "CS", "c", "Student", "q", "r"⟩], [],
          1, 2, 1⟩ 99).1 =
      ⟨[], [⟨1, "Juan", "2021-1", "CS", "c", "Student", "q", "r"⟩], [],
        1, 2, 1⟩ :=
  ⟨delete_user_total.1
      ⟨[], [⟨1, "Juan", "2021-1", "CS", "c", "Student", "q", "r"⟩], [],
        1, 2, 1⟩ 99,
    delete_user_total.2
      ⟨[], [⟨1, "Juan", "2021-1", "CS", "c", "Student", "q", "r"⟩], [],
        1, 2, 1⟩ 99 (by decide) (by decide)⟩

/-! # Lemmas for the user-type invariant -/

theorem users_register_user (db : DB) (n i d t c q r : String) :
    (register_user db n i d t c q r).1.users = db.users ∨
    ((register_user db n i d t c q r).1.users =
        db.users ++ [⟨db.next_user_id, n, i, d, c, t, q, r⟩] ∧
      validUserType t = true) := by
  unfold register_user
  by_cases h : validUserType t = true
  · right
    rw [if_pos h]
    exact ⟨rfl, h⟩
  · left
    rw [if_neg h]

theorem users_create_time_out (db : DB) (lid : Nat) (now : Tod) :
    (create_time_out db lid now).1.users = db.users := by
  unfold create_time_out
  split
  · rfl
  · rfl

theorem users_process_qr_scan (db : DB) (input : String) (now : Tod)
    (today : String) : (process_qr_scan db input now today).1.users =
      db.users := by
  by_cases h0 : (pyStrip input == "") = true
  · simp [process_qr_scan, h0]
  · rcases hp : parse_qr_data (pyStrip input) with _ | p
    · simp [process_qr_scan, h0, hp]
    · rcases hu : get_user_by_qr_data db p.name p.id_number with _ | user
      · simp [process_qr_scan, h0, hp, hu]
      · rcases ha : get_active_log db user.user_id with _ | al
        · simp [process_qr_scan, h0, hp, hu, ha, create_time_in]
        · by_cases hr : (create_time_out db al.log_id now).2 = true
          · simp [process_qr_scan, h0, hp, hu, ha, hr,
              users_create_time_out]
          · simp [process_qr_scan, h0, hp, hu, ha, hr,
              users_create_time_out]

theorem users_create_account (db : DB) (u p c vu vp : String) :
    (create_account db u p c vu vp).1.users = db.users := by
  simp only [create_account]
  split
  · rfl
  split
  · rfl
  split
  · rfl
  split
  · rfl
  split
  · rfl
  split
  · rfl
  split
  · rfl
  · rfl

/-! # Claim C9 -/

/-- C9: the storage schema's CHECK constraint confines `user_type` to
{Student, Teacher, Guest}: `register_user` fails (returns `none`,
database unchanged) for any other value, and the invariant "every stored
user row has a valid type" is preserved by every mutating operation of
the system. -/
theorem user_type_check_invariant :
    (∀ db n i d t c q r, validUserType t = false →
      register_user db n i d t c q r = (db, none)) ∧
    (∀ db n i d t c q r, userTypesOk db →
      userTypesOk (register_user db n i d t c q r).1) ∧
    (∀ db uid, userTypesOk db → userTypesOk (delete_user db uid).1) ∧
    (∀ db uid n d now today, userTypesOk db →
      userTypesOk (create_time_in db uid n d now today).1) ∧
    (∀ db lid now, userTypesOk db →
      userTypesOk (create_time_out db lid now).1) ∧
    (∀ db input now today, userTypesOk db →
      userTypesOk (process_qr_scan db input now today).1) ∧
    (∀ db n i d c t q r, userTypesOk db →
      userTypesOk (registration_submit db n i d c t q r).1) ∧
    (∀ db u p c vu vp, userTypesOk db →
      userTypesOk (create_account db u p c vu vp).1) := by
  have hreg : ∀ db n i d t c q r, userTypesOk db →
      userTypesOk (register_user db n i d t c q r).1 := by
    intro db n i d t c q r hok
    rcases users_register_user db n i d t c q r with h | ⟨h, hv⟩
    · intro u hu
      rw [h] at hu
      exact hok u hu
    · intro u hu
      rw [h, List.mem_append] at hu
      rcases hu with hu | hu
      · exact hok u hu
      · rcases List.mem_singleton.mp hu with rfl
        exact hv
  refine ⟨?_, hreg, ?_, ?_, ?_, ?_, ?_, ?_⟩
  · intro db n i d t c q r hbad
    unfold register_user
    rw [if_neg (by rw [hbad]; exact Bool.false_ne_true)]
  · intro db uid hok u hu
    have := List.mem_filter.mp hu
    exact hok u this.1
  · intro db uid n d now today hok u hu
    exact hok u hu
  · intro db lid now hok u hu
    rw [users_create_time_out] at hu
    exact hok u hu
  · intro db input now today hok u hu
    rw [users_process_qr_scan] at hu
    exact hok u hu
  · intro db n i d c t q r hok
    unfold registration_submit
    by_cases h : validate_input db n i d c t = true
    · rw [if_pos h]
      exact hreg db _ _ _ _ _ _ _ hok
    · rw [if_neg h]
      exact hok
  · intro db u p c vu vp hok x hx
    rw [users_create_account] at hx
    exact hok x hx

/-- C9, witness: a rejected insert for the unknown category "Janitor" on
a concrete database, and invariant preservation through a concrete
delete. -/
theorem user_type_check_invariant_witness :
    register_user ⟨[], [], [], 1, 1, 1⟩ "Juan" "1" "CS" "Janitor" "c" "q"
        "r" = (⟨[], [], [], 1, 1, 1⟩, none) ∧
    userTypesOk (delete_user
      ⟨[], [⟨1, "Juan", "2021-1", "CS", "c", "Student", "q", "r"⟩], [],
        1, 2, 1⟩ 1).1 :=
  ⟨user_type_check_invariant.1 ⟨[], [], [], 1, 1, 1⟩ "Juan" "1" "CS"
      "Janitor" "c" "q" "r" (by decide),
    user_type_check_invariant.2.2.1
      ⟨[], [⟨1, "Juan", "2021-1", "CS", "c", "Student", "q", "r"⟩], [],
        1, 2, 1⟩ 1 (by unfold userTypesOk; decide)⟩

/-! # Claim C7 -/

/-- C7: `create_account` rejects without inserting whenever the
(stripped) username is shorter than 3, the password shorter than 6, the
password differs from its confirmation, the username already exists, or
the verifier credentials fail `verify_admin`; and with a valid verifier,
a fresh username and matching confirmation, a 5-character password is
rejected while a 6-character one succeeds. -/
theorem create_account_spec :
    (∀ db u p c vu vp,
      ((pyStrip u).length < 3 ∨ (pyStrip p).length < 6 ∨
        pyStrip p ≠ pyStrip c ∨
        (db.admins.any fun a => a.username == pyStrip u) = true ∨
        verify_admin db (pyStrip vu) (pyStrip vp) = false) →
      (create_account db u p c vu vp).1 = db ∧
      (create_account db u p c vu vp).2 ≠ .success) ∧
    (∀ db u p vu vp,
      3 ≤ (pyStrip u).length →
      (db.admins.any fun a => a.username == pyStrip u) = false →
      verify_admin db (pyStrip vu) (pyStrip vp) = true →
      pyStrip p = p →
      ((p.length = 5 →
        (create_account db u p p vu vp).1 = db ∧
        (create_account db u p p vu vp).2 = .passwordTooShort) ∧
       (p.length = 6 →
        (create_account db u p p vu vp).2 = .success ∧
        (create_account db u p p vu vp).1.admins =
          db.admins ++ [⟨db.next_admin_id, pyStrip u, p⟩]))) := by
  constructor
  · intro db u p c vu vp hrej
    simp only [create_account]
    split
    · exact ⟨rfl, by simp⟩
    split
    · exact ⟨rfl, by simp⟩
    split
    · exact ⟨rfl, by simp⟩
    split
    · exact ⟨rfl, by simp⟩
    split
    · exact ⟨rfl, by simp⟩
    split
    · exact ⟨rfl, by simp⟩
    split
    · exact ⟨rfl, by simp⟩
    · next h1 h2 h3 h4 h5 h6 h7 =>
      exfalso
      rcases hrej with h | h | h | h | h
      · have : ¬(pyStrip u).length < 3 := h2
        omega
      · have : ¬(pyStrip p).length < 6 := h4
        omega
      · exact h (by simpa using h5)
      · exact h7 h
      · rw [h] at h6
        exact h6 rfl
  · intro db u p vu vp hlen hfresh hver hstrip
    constructor
    · intro h5
      have hne : ¬((pyStrip u == "") = true) := by
        simp only [beq_iff_eq]
        intro he
        rw [he] at hlen
        simp at hlen
      simp only [create_account]
      rw [if_neg hne, if_neg (by omega),
        if_neg (show ¬((pyStrip p == "") = true) by
          simp only [beq_iff_eq]
          intro he
          rw [hstrip] at he
          rw [he] at h5
          simp at h5),
        if_pos (by rw [hstrip]; omega)]
      exact ⟨rfl, rfl⟩
    · intro h6
      have hne : ¬((pyStrip u == "") = true) := by
        simp only [beq_iff_eq]
        intro he
        rw [he] at hlen
        simp at hlen
      simp only [create_account]
      rw [if_neg hne, if_neg (by omega),
        if_neg (show ¬((pyStrip p == "") = true) by
          simp only [beq_iff_eq]
          intro he
          rw [hstrip] at he
          rw [he] at h6
          simp at h6),
        if_neg (by rw [hstrip]; omega),
        if_neg (show ¬((pyStrip p != pyStrip p) = true) by simp),
        if_neg (show ¬((!verify_admin db (pyStrip vu) (pyStrip vp)) = true)
          by rw [hver]; simp),
        if_neg (show ¬((db.admins.any fun a => a.username == pyStrip u)
            = true) by rw [hfresh]; simp)]
      exact ⟨rfl, by rw [hstrip]⟩

/-- C7, witness: with the seeded admin verifying, a 5-character password
fails and a 6-character one succeeds on a concrete database. -/
theorem create_account_spec_witness :
    (create_account ⟨[⟨1, "admin", "admin123"⟩], [], [], 2, 1, 1⟩ "bob"
        "abcde" "abcde" "admin" "admin123").2 = .passwordTooShort ∧
    (create_account ⟨[⟨1, "admin", "admin123"⟩], [], [], 2, 1, 1⟩ "bob"
        "secret" "secret" "admin" "admin123").2 = .success :=
  ⟨((create_account_spec.2 ⟨[⟨1, "admin", "admin123"⟩], [], [], 2, 1, 1⟩
      "bob" "abcde" "admin" "admin123" (by decide) (by decide) (by decide)
      (by decide)).1 (by decide)).2,
   ((create_account_spec.2 ⟨[⟨1, "admin", "admin123"⟩], [], [], 2, 1, 1⟩
      "bob" "secret" "admin" "admin123" (by decide) (by decide) (by decide)
      (by decide)).2 (by decide)).1⟩

/-! # Claim C6 -/

/-- C6: after any successful registration, `check_id_exists` holds for
the registered (stripped) id number; a later non-guest registration with
an id number that already exists is rejected with no insert; and guest
registrations, which the form submits under the fixed "Guest" sentinel
id, succeed regardless of how many "Guest" rows already exist (no
uniqueness check applies to guests). -/
theorem registration_uniqueness :
    (∀ db n i d c t q r db' uid,
      registration_submit db n i d c t q r = (db', some uid) →
      check_id_exists db' (pyStrip i) = true) ∧
    (∀ db n i d c t q r, t ≠ "Guest" →
      check_id_exists db (pyStrip i) = true →
      registration_submit db n i d c t q r = (db, none)) ∧
    (∀ db n c q r, pyStrip n ≠ "" → pyStrip c ≠ "" →
      (registration_submit db n "Guest" "Guest" c "Guest" q r).2 =
        some db.next_user_id ∧
      (registration_submit db n "Guest" "Guest" c "Guest" q r).1.users =
        db.users ++
          [⟨db.next_user_id, pyStrip n, "Guest", "Guest", pyStrip c,
            "Guest", q, r⟩]) := by
  refine ⟨?_, ?_, ?_⟩
  · intro db n i d c t q r db' uid heq
    unfold registration_submit at heq
    by_cases hv : validate_input db n i d c t = true
    · rw [if_pos hv] at heq
      unfold register_user at heq
      by_cases ht : validUserType t = true
      · rw [if_pos ht] at heq
        injection heq with hdb huid
        subst hdb
        unfold check_id_exists
        simp
      · rw [if_neg ht] at heq
        injection heq with hdb huid
        exact absurd huid (by simp)
    · rw [if_neg hv] at heq
      injection heq with hdb huid
      exact absurd huid (by simp)
  · intro db n i d c t q r hng hdup
    have hne : (t != "Guest") = true := by simpa using hng
    have hval : validate_input db n i d c t = false := by
      unfold validate_input
      by_cases h1 : (pyStrip n == "") = true
      · rw [if_pos h1]
      · rw [if_neg h1]
        by_cases h2 : (pyStrip i == "") = true
        · rw [if_pos (by rw [hne, h2]; rfl)]
        · have h2f : (pyStrip i == "") = false :=
            beq_eq_false_iff_ne.mpr (by simpa using h2)
          rw [if_neg (by rw [hne, h2f]; simp)]
          by_cases h3 : (pyStrip d == "") = true
          · rw [if_pos (by rw [hne, h3]; rfl)]
          · have h3f : (pyStrip d == "") = false :=
              beq_eq_false_iff_ne.mpr (by simpa using h3)
            rw [if_neg (by rw [hne, h3f]; simp)]
            rw [if_pos (by rw [hne, hdup]; rfl)]
    unfold registration_submit
    rw [if_neg (by rw [hval]; simp)]
  · intro db n c q r hn hc
    have hval : validate_input db n "Guest" "Guest" c "Guest" = true := by
      unfold validate_input
      rw [if_neg (by simpa using hn)]
      rw [if_neg (by simp)]
      rw [if_neg (by simp)]
      rw [if_neg (by simp)]
      rw [if_neg (by simpa using hc)]
    unfold registration_submit
    rw [if_pos hval]
    unfold register_user
    rw [if_pos (by decide)]
    exact ⟨rfl, by rfl⟩

/-- C6, witness: concrete registration of a student makes the id number
exist; re-registering the same id is rejected; a second guest registers
fine next to an existing guest row. -/
theorem registration_uniqueness_witness :
    check_id_exists
      (registration_submit ⟨[], [], [], 1, 1, 1⟩ "Juan" "2021-1" "CS"
        "0917" "Student" "q" "r").1 "2021-1" = true ∧
    registration_submit
      ⟨[], [⟨1, "Juan", "2021-1", "CS", "0917", "Student", "q", "r"⟩], [],
        1, 2, 1⟩ "Pedro" "2021-1" "Math" "0918" "Student" "q2" "r2" =
      (⟨[], [⟨1, "Juan", "2021-1", "CS", "0917", "Student", "q", "r"⟩], [],
        1, 2, 1⟩, none) ∧
    (registration_submit
      ⟨[], [⟨1, "Ana", "Guest", "Guest", "0917", "Guest", "q", "r"⟩], [],
        1, 2, 1⟩ "Bea" "Guest" "Guest" "0918" "Guest" "q2" "r2").2 =
      some 2 := by
  refine ⟨?_, ?_, ?_⟩
  · exact registration_uniqueness.1 ⟨[], [], [], 1, 1, 1⟩ "Juan" "2021-1"
      "CS" "0917" "Student" "q" "r" _ 1 (by decide)
  · exact registration_uniqueness.2.1
      ⟨[], [⟨1, "Juan", "2021-1", "CS", "0917", "Student", "q", "r"⟩], [],
        1, 2, 1⟩ "Pedro" "2021-1" "Math" "0918" "Student" "q2" "r2"
      (by decide) (by decide)
  · exact (registration_uniqueness.2.2
      ⟨[], [⟨1, "Ana", "Guest", "Guest", "0917", "Guest", "q", "r"⟩], [],
        1, 2, 1⟩ "Bea" "0918" "q2" "r2" (by decide) (by decide)).1

/-! # Claim C5 -/

/-- C5, counterexample: two guests can register with the same display
name, and both then carry the sentinel id "Guest".  Deleting the first
succeeds and removes their row, yet `get_user_by_qr_data` with the
deleted identity's name and id still finds the second guest, not
not_found. -/
theorem delete_cascade_counterexample :
    (delete_user
        ⟨[], [⟨1, "John", "Guest", "Guest", "111", "Guest", "q1", "r"⟩,
              ⟨2, "John", "Guest", "Guest", "222", "Guest", "q2", "r"⟩],
          [], 1, 3, 1⟩ 1).2 = true ∧
    (∀ u ∈ (delete_user
        ⟨[], [⟨1, "John", "Guest", "Guest", "111", "Guest", "q1", "r"⟩,
              ⟨2, "John", "Guest", "Guest", "222", "Guest", "q2", "r"⟩],
          [], 1, 3, 1⟩ 1).1.users, u.user_id ≠ 1) ∧
    get_user_by_qr_data (delete_user
        ⟨[], [⟨1, "John", "Guest", "Guest", "111", "Guest", "q1", "r"⟩,
              ⟨2, "John", "Guest", "Guest", "222", "Guest", "q2", "r"⟩],
          [], 1, 3, 1⟩ 1).1 "John" "Guest" ≠ none := by
  refine ⟨by decide, by decide, by decide⟩

/-- C5, amended: after `delete_user X.user_id` succeeds, no log row
referencing the id remains, the identity row is removed, every log and
identity row NOT referencing the id survives, and — provided no OTHER
identity shares both X's name and id number (which duplicate guest
registrations make possible) — `get_user_by_qr_data` with X's name and
id number returns none. -/
theorem delete_cascade :
    ∀ db (X : RegisteredUser),
      (delete_user db X.user_id).2 = true ∧
      (∀ l ∈ (delete_user db X.user_id).1.logs,
        l.user_id ≠ some X.user_id) ∧
      (∀ u ∈ (delete_user db X.user_id).1.users, u.user_id ≠ X.user_id) ∧
      (∀ l ∈ db.logs, l.user_id ≠ some X.user_id →
        l ∈ (delete_user db X.user_id).1.logs) ∧
      (∀ u ∈ db.users, u.user_id ≠ X.user_id →
        u ∈ (delete_user db X.user_id).1.users) ∧
      ((∀ u ∈ db.users, u.name = X.name → u.id_number = X.id_number →
          u.user_id = X.user_id) →
        get_user_by_qr_data (delete_user db X.user_id).1 X.name
          X.id_number = none) := by
  intro db X
  refine ⟨rfl, ?_, ?_, ?_, ?_, ?_⟩
  · intro l hl
    have := List.mem_filter.mp hl
    simpa using this.2
  · intro u hu
    have := List.mem_filter.mp hu
    simpa using this.2
  · intro l hl hne
    exact List.mem_filter.mpr ⟨hl, by simpa using hne⟩
  · intro u hu hne
    exact List.mem_filter.mpr ⟨hu, by simpa using hne⟩
  · intro huniq
    unfold get_user_by_qr_data
    rw [List.head?_eq_none_iff.mpr]
    rw [List.filter_eq_nil_iff]
    intro u hu
    have hu' := List.mem_filter.mp hu
    have hid : u.user_id ≠ X.user_id := by simpa using hu'.2
    simp only [Bool.and_eq_true, beq_iff_eq]
    intro hmatch
    exact hid (huniq u hu'.1 hmatch.1 hmatch.2)

/-- C5, witness: deleting the only user with a given (name, id) pair on
a concrete database removes their row, their logs, and makes the lookup
fail. -/
theorem delete_cascade_witness :
    (delete_user
        ⟨[], [⟨1, "Juan", "2021-1", "CS", "c", "Student", "q", "r"⟩],
          [⟨1, some 1, "Juan", "CS", ⟨9, 0, 0⟩, none, none, "2024-01-05"⟩],
          1, 2, 2⟩ 1).2 = true ∧
    get_user_by_qr_data (delete_user
        ⟨[], [⟨1, "Juan", "2021-1", "CS", "c", "Student", "q", "r"⟩],
          [⟨1, some 1, "Juan", "CS", ⟨9, 0, 0⟩, none, none, "2024-01-05"⟩],
          1, 2, 2⟩ 1).1 "Juan" "2021-1" = none := by
  have h := delete_cascade
    ⟨[], [⟨1, "Juan", "2021-1", "CS", "c", "Student", "q", "r"⟩],
      [⟨1, some 1, "Juan", "CS", ⟨9, 0, 0⟩, none, none, "2024-01-05"⟩],
      1, 2, 2⟩
    ⟨1, "Juan", "2021-1", "CS", "c", "Student", "q", "r"⟩
  exact ⟨h.1, h.2.2.2.2.2 (by decide)⟩

/-! # Lemmas about the scan state machine -/

theorem pyStrip_ne_empty (T : String) (p : QRData)
    (h : parse_qr_data (pyStrip T) = some p) :
    (pyStrip T == "") = false := by
  cases hb : (pyStrip T == "") with
  | false => rfl
  | true =>
    rw [beq_iff_eq] at hb
    rw [hb] at h
    have hnone : parse_qr_data "" = none := by decide
    rw [hnone] at h
    exact absurd h (by simp)

theorem foldl_pick_mem (L : List LogRecord) :
    ∀ (acc : Option LogRecord) (x : LogRecord),
      L.foldl (fun acc l =>
        match acc with
        | none => some l
        | some m => if m.log_id < l.log_id then some l else some m)
        acc = some x →
      x ∈ L ∨ acc = some x := by
  induction L with
  | nil =>
    intro acc x h
    right
    exact h
  | cons a t ih =>
    intro acc x h
    rw [List.foldl_cons] at h
    rcases ih _ x h with hx | hx
    · left
      exact List.mem_cons_of_mem a hx
    · cases acc with
      | none =>
        left
        have ha : a = x := by simpa using hx
        rw [← ha]
        exact List.mem_cons_self a t
      | some m =>
        by_cases hc : m.log_id < a.log_id
        · rw [show ((match some m with
              | none => some a
              | some m => if m.log_id < a.log_id then some a else some m) :
                Option LogRecord) = if m.log_id < a.log_id then some a
                  else some m from rfl, if_pos hc] at hx
          left
          have ha : a = x := by simpa using hx
          rw [← ha]
          exact List.mem_cons_self a t
        · rw [show ((match some m with
              | none => some a
              | some m => if m.log_id < a.log_id then some a else some m) :
                Option LogRecord) = if m.log_id < a.log_id then some a
                  else some m from rfl, if_neg hc] at hx
          right
          exact hx

theorem get_active_log_mem (db : DB) (uid : Nat) (al : LogRecord)
    (h : get_active_log db uid = some al) :
    al ∈ db.logs ∧ al.user_id = some uid ∧ al.time_out = none := by
  unfold get_active_log at h
  rcases foldl_pick_mem (openLogsFor db uid) none al h with hmem | hacc
  · unfold openLogsFor at hmem
    have h2 := List.mem_filter.mp hmem
    refine ⟨h2.1, ?_, ?_⟩
    · have := h2.2
      simp only [Bool.and_eq_true, beq_iff_eq] at this
      exact this.1
    · have := h2.2
      simp only [Bool.and_eq_true, beq_iff_eq] at this
      exact this.2
  · exact absurd hacc (by simp)

theorem get_active_log_of_openLogsFor_nil (db : DB) (uid : Nat)
    (h : openLogsFor db uid = []) : get_active_log db uid = none := by
  unfold get_active_log
  rw [h]
  rfl

theorem get_active_log_of_openLogsFor_single (db : DB) (uid : Nat)
    (al : LogRecord) (h : openLogsFor db uid = [al]) :
    get_active_log db uid = some al := by
  unfold get_active_log
  rw [h]
  rfl

theorem get_user_congr (db1 db2 : DB) (h : db1.users = db2.users)
    (n i : String) :
    get_user_by_qr_data db1 n i = get_user_by_qr_data db2 n i := by
  unfold get_user_by_qr_data
  rw [h]

theorem process_eq_arrival (db : DB) (T : String) (now : Tod)
    (today : String) (p : QRData) (u : RegisteredUser)
    (hp : parse_qr_data (pyStrip T) = some p)
    (hu : get_user_by_qr_data db p.name p.id_number = some u)
    (ha : get_active_log db u.user_id = none) :
    process_qr_scan db T now today =
      ({ db with
          logs := db.logs ++ [⟨db.next_log_id, some u.user_id, u.name,
            u.department, now, none, none, today⟩],
          next_log_id := db.next_log_id + 1 }, .timeIn) := by
  have h0 := pyStrip_ne_empty T p hp
  simp [process_qr_scan, h0, hp, hu, ha, create_time_in]

theorem create_time_out_of_mem (db : DB) (lid : Nat) (now : Tod)
    (l : LogRecord) (hl : l ∈ db.logs) (hlid : l.log_id = lid) :
    (create_time_out db lid now).2 = true ∧
    (create_time_out db lid now).1.users = db.users ∧
    (create_time_out db lid now).1.next_log_id = db.next_log_id ∧
    ∃ d, (create_time_out db lid now).1.logs = db.logs.map fun l' =>
      if l'.log_id == lid then
        { l' with time_out := some now, duration := some d }
      else l' := by
  have hne : (db.logs.filter fun x => x.log_id == lid) ≠ [] := by
    intro hnil
    rw [List.filter_eq_nil_iff] at hnil
    exact hnil l hl (by simp [hlid])
  obtain ⟨l0, hl0⟩ : ∃ l0,
      (db.logs.filter fun x => x.log_id == lid).head? = some l0 := by
    cases hh : (db.logs.filter fun x => x.log_id == lid).head? with
    | none => exact absurd (List.head?_eq_none_iff.mp hh) hne
    | some l0 => exact ⟨l0, rfl⟩
  unfold create_time_out
  rw [hl0]
  exact ⟨rfl, rfl, rfl,
    durationString ((now.toSec : Int) - (l0.time_in.toSec : Int)), rfl⟩

theorem process_departure (db : DB) (T : String) (now : Tod)
    (today : String) (p : QRData) (u : RegisteredUser) (al : LogRecord)
    (hp : parse_qr_data (pyStrip T) = some p)
    (hu : get_user_by_qr_data db p.name p.id_number = some u)
    (ha : get_active_log db u.user_id = some al) :
    (process_qr_scan db T now today).2 = .timeOut ∧
    (process_qr_scan db T now today).1.users = db.users ∧
    (process_qr_scan db T now today).1.next_log_id = db.next_log_id ∧
    ∃ d, (process_qr_scan db T now today).1.logs =
      db.logs.map fun l' =>
        if l'.log_id == al.log_id then
          { l' with time_out := some now, duration := some d }
        else l' := by
  have h0 := pyStrip_ne_empty T p hp
  obtain ⟨hmem, -, -⟩ := get_active_log_mem db u.user_id al ha
  obtain ⟨hsucc, husers, hnext, d, hlogs⟩ :=
    create_time_out_of_mem db al.log_id now al hmem rfl
  have hproc : process_qr_scan db T now today =
      ((create_time_out db al.log_id now).1, .timeOut) := by
    simp [process_qr_scan, h0, hp, hu, ha, hsucc]
  rw [hproc]
  exact ⟨rfl, husers, hnext, d, hlogs⟩

/-! # Claim C1 -/

/-- C1: once a scanned token decodes and resolves to a registered user,
the arrival/departure decision is read off the ledger alone: no open
visit means the scan is reported as a Time-In and a new open visit
stamped with the current time is appended; an open visit means Time-Out
and that visit gets its departure time set.  Any other token resolving
to the same user produces the same outcome, and a fresh identity's
three consecutive scans report Time-In, Time-Out, Time-In. -/
theorem scan_state_machine :
    ∀ db T now today p u,
      parse_qr_data (pyStrip T) = some p →
      get_user_by_qr_data db p.name p.id_number = some u →
      ((get_active_log db u.user_id = none →
        (process_qr_scan db T now today).2 = .timeIn ∧
        (process_qr_scan db T now today).1.logs =
          db.logs ++ [⟨db.next_log_id, some u.user_id, u.name,
            u.department, now, none, none, today⟩]) ∧
      (∀ al, get_active_log db u.user_id = some al →
        (process_qr_scan db T now today).2 = .timeOut ∧
        ∀ l ∈ (process_qr_scan db T now today).1.logs,
          l.log_id = al.log_id → l.time_out = some now) ∧
      (∀ T2 p2, parse_qr_data (pyStrip T2) = some p2 →
        get_user_by_qr_data db p2.name p2.id_number = some u →
        (process_qr_scan db T now today).2 =
          (process_qr_scan db T2 now today).2) ∧
      (∀ (nows : Nat → Tod) (dates : Nat → String),
        (∀ l ∈ db.logs, l.user_id ≠ some u.user_id) →
        (process_qr_scan db T (nows 0) (dates 0)).2 = .timeIn ∧
        (process_qr_scan (process_qr_scan db T (nows 0) (dates 0)).1 T
          (nows 1) (dates 1)).2 = .timeOut ∧
        (process_qr_scan (process_qr_scan (process_qr_scan db T (nows 0)
          (dates 0)).1 T (nows 1) (dates 1)).1 T (nows 2)
          (dates 2)).2 = .timeIn)) := by
  intro db T now today p u hp hu
  refine ⟨?_, ?_, ?_, ?_⟩
  · intro ha
    rw [process_eq_arrival db T now today p u hp hu ha]
    exact ⟨rfl, rfl⟩
  · intro al ha
    obtain ⟨hout, -, -, d, hlogs⟩ :=
      process_departure db T now today p u al hp hu ha
    refine ⟨hout, ?_⟩
    intro l hl hlid
    rw [hlogs] at hl
    rw [List.mem_map] at hl
    obtain ⟨x, hx, hfx⟩ := hl
    by_cases hxb : (x.log_id == al.log_id) = true
    · rw [if_pos hxb] at hfx
      rw [← hfx]
    · rw [if_neg hxb] at hfx
      rw [← hfx] at hlid
      exact absurd (by simp [hlid]) hxb
  · intro T2 p2 hp2 hu2
    cases ha : get_active_log db u.user_id with
    | none =>
      rw [process_eq_arrival db T now today p u hp hu ha,
        process_eq_arrival db T2 now today p2 u hp2 hu2 ha]
    | some al =>
      rw [(process_departure db T now today p u al hp hu ha).1,
        (process_departure db T2 now today p2 u al hp2 hu2 ha).1]
  · intro nows dates hfresh
    have hopen0 : openLogsFor db u.user_id = [] := by
      unfold openLogsFor
      rw [List.filter_eq_nil_iff]
      intro l hl
      simp only [Bool.and_eq_true, beq_iff_eq]
      intro hc
      exact hfresh l hl hc.1
    have ha0 : get_active_log db u.user_id = none :=
      get_active_log_of_openLogsFor_nil db u.user_id hopen0
    have h1 := process_eq_arrival db T (nows 0) (dates 0) p u hp hu ha0
    set newLog : LogRecord := ⟨db.next_log_id, some u.user_id, u.name,
      u.department, nows 0, none, none, dates 0⟩ with hnew
    set db1 : DB := { db with
      logs := db.logs ++ [newLog],
      next_log_id := db.next_log_id + 1 } with hdb1
    have husers1 : db1.users = db.users := rfl
    have hu1 : get_user_by_qr_data db1 p.name p.id_number = some u := by
      rw [get_user_congr db1 db husers1]
      exact hu
    have hopen1 : openLogsFor db1 u.user_id = [newLog] := by
      unfold openLogsFor
      show (db.logs ++ [newLog]).filter _ = [newLog]
      rw [List.filter_append]
      unfold openLogsFor at hopen0
      rw [hopen0]
      simp
    have ha1 : get_active_log db1 u.user_id = some newLog :=
      get_active_log_of_openLogsFor_single db1 u.user_id newLog hopen1
    have h2 := process_departure db1 T (nows 1) (dates 1) p u newLog hp
      hu1 ha1
    obtain ⟨hout2, husers2, -, d2, hlogs2⟩ := h2
    set db2 : DB := (process_qr_scan db1 T (nows 1) (dates 1)).1 with hdb2
    have hu2 : get_user_by_qr_data db2 p.name p.id_number = some u := by
      rw [get_user_congr db2 db (by rw [husers2])]
      exact hu
    have hopen2 : openLogsFor db2 u.user_id = [] := by
      unfold openLogsFor
      rw [List.filter_eq_nil_iff]
      intro x hx
      rw [hdb2, hlogs2, List.mem_map] at hx
      obtain ⟨y, hy, hfy⟩ := hx
      by_cases hyb : (y.log_id == newLog.log_id) = true
      · rw [if_pos hyb] at hfy
        rw [← hfy]
        simp
      · rw [if_neg hyb] at hfy
        rcases List.mem_append.mp hy with hyo | hyn
        · rw [← hfy]
          simp only [Bool.and_eq_true, beq_iff_eq]
          intro hc
          exact hfresh y hyo hc.1
        · rcases List.mem_singleton.mp hyn with rfl
          exact absurd (by simp) hyb
    have ha2 : get_active_log db2 u.user_id = none :=
      get_active_log_of_openLogsFor_nil db2 u.user_id hopen2
    have h3 := process_eq_arrival db2 T (nows 2) (dates 2) p u hp hu2 ha2
    refine ⟨by rw [h1], ?_, ?_⟩
    · rw [show (process_qr_scan db T (nows 0) (dates 0)).1 = db1 by
        rw [h1]]
      exact hout2
    · rw [show (process_qr_scan db T (nows 0) (dates 0)).1 = db1 by
        rw [h1], ← hdb2, h3]

/-- C1, witness: three consecutive scans of a freshly registered
student's token on a concrete database report Time-In, Time-Out,
Time-In. -/
theorem scan_state_machine_witness :
    (process_qr_scan ⟨[], [⟨1, "John", "2021-1", "CS", "c", "Student",
        "q", "r"⟩], [], 1, 2, 1⟩ "John|2021-1|CS|Student" ⟨9, 0, 0⟩
      "2024-01-05").2 = .timeIn ∧
    (process_qr_scan (process_qr_scan ⟨[], [⟨1, "John", "2021-1", "CS",
        "c", "Student", "q", "r"⟩], [], 1, 2, 1⟩ "John|2021-1|CS|Student"
        ⟨9, 0, 0⟩ "2024-01-05").1 "John|2021-1|CS|Student" ⟨9, 0, 0⟩
      "2024-01-05").2 = .timeOut ∧
    (process_qr_scan (process_qr_scan (process_qr_scan ⟨[], [⟨1, "John",
        "2021-1", "CS", "c", "Student", "q", "r"⟩], [], 1, 2, 1⟩
        "John|2021-1|CS|Student" ⟨9, 0, 0⟩ "2024-01-05").1
        "John|2021-1|CS|Student" ⟨9, 0, 0⟩ "2024-01-05").1
      "John|2021-1|CS|Student" ⟨9, 0, 0⟩ "2024-01-05").2 = .timeIn :=
  (scan_state_machine
    ⟨[], [⟨1, "John", "2021-1", "CS", "c", "Student", "q", "r"⟩], [],
      1, 2, 1⟩
    "John|2021-1|CS|Student" ⟨9, 0, 0⟩ "2024-01-05"
    ⟨"John", "2021-1", "CS", "Student"⟩
    ⟨1, "John", "2021-1", "CS", "c", "Student", "q", "r"⟩
    (by decide) (by decide)).2.2.2
    (fun _ => ⟨9, 0, 0⟩) (fun _ => "2024-01-05") (by decide)

/-! # Lemmas for the open-visit parity invariant -/

theorem scan_step_even (db : DB) (T : String) (now : Tod)
    (today : String) (p : QRData) (u : RegisteredUser)
    (hp : parse_qr_data (pyStrip T) = some p)
    (hu : get_user_by_qr_data db p.name p.id_number = some u)
    (hopen : openLogsFor db u.user_id = []) :
    (process_qr_scan db T now today).1.users = db.users ∧
    openLogsFor (process_qr_scan db T now today).1 u.user_id =
      [⟨db.next_log_id, some u.user_id, u.name, u.department, now, none,
        none, today⟩] := by
  have ha := get_active_log_of_openLogsFor_nil db u.user_id hopen
  rw [process_eq_arrival db T now today p u hp hu ha]
  refine ⟨rfl, ?_⟩
  unfold openLogsFor at hopen ⊢
  show (db.logs ++ _).filter _ = _
  rw [List.filter_append, hopen]
  simp

theorem scan_step_odd (db : DB) (T : String) (now : Tod)
    (today : String) (p : QRData) (u : RegisteredUser) (al : LogRecord)
    (hp : parse_qr_data (pyStrip T) = some p)
    (hu : get_user_by_qr_data db p.name p.id_number = some u)
    (hopen : openLogsFor db u.user_id = [al]) :
    (process_qr_scan db T now today).1.users = db.users ∧
    openLogsFor (process_qr_scan db T now today).1 u.user_id = [] := by
  have ha := get_active_log_of_openLogsFor_single db u.user_id al hopen
  obtain ⟨-, husers, -, d, hlogs⟩ :=
    process_departure db T now today p u al hp hu ha
  refine ⟨husers, ?_⟩
  unfold openLogsFor
  rw [hlogs, List.filter_eq_nil_iff]
  intro x hx
  rw [List.mem_map] at hx
  obtain ⟨y, hy, hfy⟩ := hx
  by_cases hyb : (y.log_id == al.log_id) = true
  · rw [if_pos hyb] at hfy
    rw [← hfy]
    simp
  · rw [if_neg hyb] at hfy
    rw [← hfy]
    intro hyopen
    have hmem : y ∈ openLogsFor db u.user_id := by
      unfold openLogsFor
      exact List.mem_filter.mpr ⟨hy, hyopen⟩
    rw [hopen] at hmem
    rcases List.mem_singleton.mp hmem with rfl
    exact hyb (by simp)

/-! # Claim C2 -/

/-- C2: starting from an empty ledger, after any number N of consecutive
scans of a registered user's token, the number of open visits of that
user equals N mod 2 — in particular it never exceeds one at any point,
and exactly one open visit exists iff N is odd. -/
theorem open_visit_parity :
    ∀ db T (nows : Nat → Tod) (dates : Nat → String) p u,
      parse_qr_data (pyStrip T) = some p →
      get_user_by_qr_data db p.name p.id_number = some u →
      db.logs = [] →
      ∀ N,
        (openLogsFor (scanIter db T nows dates N) u.user_id).length =
          N % 2 ∧
        (openLogsFor (scanIter db T nows dates N) u.user_id).length ≤ 1 ∧
        ((openLogsFor (scanIter db T nows dates N) u.user_id).length = 1 ↔
          N % 2 = 1) := by
  intro db T nows dates p u hp hu hempty
  have key : ∀ N, (scanIter db T nows dates N).users = db.users ∧
      ((N % 2 = 0 ∧
          openLogsFor (scanIter db T nows dates N) u.user_id = []) ∨
       (N % 2 = 1 ∧ ∃ al,
          openLogsFor (scanIter db T nows dates N) u.user_id = [al])) := by
    intro N
    induction N with
    | zero =>
      refine ⟨rfl, Or.inl ⟨rfl, ?_⟩⟩
      unfold openLogsFor scanIter
      rw [hempty]
      rfl
    | succ k ih =>
      obtain ⟨hus, hsh⟩ := ih
      have huk : get_user_by_qr_data (scanIter db T nows dates k) p.name
          p.id_number = some u := by
        rw [get_user_congr _ db hus]
        exact hu
      have hstep : scanIter db T nows dates (k + 1) =
          (process_qr_scan (scanIter db T nows dates k) T (nows k)
            (dates k)).1 := rfl
      rcases hsh with ⟨hk, hsh⟩ | ⟨hk, al, hsh⟩
      · obtain ⟨hus', hsh'⟩ := scan_step_even (scanIter db T nows dates k)
          T (nows k) (dates k) p u hp huk hsh
        refine ⟨by rw [hstep, hus', hus], Or.inr ⟨by omega,
          ⟨⟨(scanIter db T nows dates k).next_log_id, some u.user_id,
            u.name, u.department, nows k, none, none, dates k⟩, ?_⟩⟩⟩
        rw [hstep]
        exact hsh'
      · obtain ⟨hus', hsh'⟩ := scan_step_odd (scanIter db T nows dates k)
          T (nows k) (dates k) p u al hp huk hsh
        refine ⟨by rw [hstep, hus', hus], Or.inl ⟨by omega, ?_⟩⟩
        rw [hstep]
        exact hsh'
  intro N
  obtain ⟨-, hsh⟩ := key N
  rcases hsh with ⟨hk, hsh⟩ | ⟨hk, al, hsh⟩
  · rw [hsh]
    refine ⟨by simp [hk], by simp, ?_⟩
    constructor
    · intro h
      simp at h
    · intro h
      exact absurd h (by omega)
  · rw [hsh]
    exact ⟨by simp [hk], by simp, ⟨fun _ => hk, fun _ => by simp⟩⟩

/-- C2, witness: after 1, 2 and 3 concrete scans of a registered user's
token starting from an empty ledger, the open-visit counts are 1, 0, 1. -/
theorem open_visit_parity_witness :
    (openLogsFor (scanIter ⟨[], [⟨1, "John", "2021-1", "CS", "c",
        "Student", "q", "r"⟩], [], 1, 2, 1⟩ "John|2021-1|CS|Student"
        (fun _ => ⟨9, 0, 0⟩) (fun _ => "2024-01-05") 1) 1).length = 1 ∧
    (openLogsFor (scanIter ⟨[], [⟨1, "John", "2021-1", "CS", "c",
        "Student", "q", "r"⟩], [], 1, 2, 1⟩ "John|2021-1|CS|Student"
        (fun _ => ⟨9, 0, 0⟩) (fun _ => "2024-01-05") 2) 1).length = 0 ∧
    (openLogsFor (scanIter ⟨[], [⟨1, "John", "2021-1", "CS", "c",
        "Student", "q", "r"⟩], [], 1, 2, 1⟩ "John|2021-1|CS|Student"
        (fun _ => ⟨9, 0, 0⟩) (fun _ => "2024-01-05") 3) 1).length = 1 :=
  ⟨(open_visit_parity ⟨[], [⟨1, "John", "2021-1", "CS", "c", "Student",
      "q", "r"⟩], [], 1, 2, 1⟩ "John|2021-1|CS|Student"
      (fun _ => ⟨9, 0, 0⟩) (fun _ => "2024-01-05")
      ⟨"John", "2021-1", "CS", "Student"⟩
      ⟨1, "John", "2021-1", "CS", "c", "Student", "q", "r"⟩
      (by decide) (by decide) rfl 1).1,
    (open_visit_parity ⟨[], [⟨1, "John", "2021-1", "CS", "c", "Student",
      "q", "r"⟩], [], 1, 2, 1⟩ "John|2021-1|CS|Student"
      (fun _ => ⟨9, 0, 0⟩) (fun _ => "2024-01-05")
      ⟨"John", "2021-1", "CS", "Student"⟩
      ⟨1, "John", "2021-1", "CS", "c", "Student", "q", "r"⟩
      (by decide) (by decide) rfl 2).1,
    (open_visit_parity ⟨[], [⟨1, "John", "2021-1", "CS", "c", "Student",
      "q", "r"⟩], [], 1, 2, 1⟩ "John|2021-1|CS|Student"
      (fun _ => ⟨9, 0, 0⟩) (fun _ => "2024-01-05")
      ⟨"John", "2021-1", "CS", "Student"⟩
      ⟨1, "John", "2021-1", "CS", "c", "Student", "q", "r"⟩
      (by decide) (by decide) rfl 3).1⟩

/-! # Lemmas about search_logs -/

theorem search_logs_mem (db : DB) (term dfrom dto tf : Option String)
    (field : String) (r : SearchRow)
    (hr : r ∈ search_logs db term dfrom dto tf field) :
    ∃ l, l ∈ db.logs ∧
      searchPred term dfrom dto tf field l (joinUser db l) = true ∧
      r = searchRowOf l (joinUser db l) := by
  unfold search_logs at hr
  rw [List.mem_insertionSort, List.mem_map] at hr
  obtain ⟨l, hl, hrl⟩ := hr
  have hm := List.mem_filter.mp hl
  exact ⟨l, hm.1, hm.2, hrl.symm⟩

theorem searchRow_conds (db : DB) (term dfrom dto tf : Option String)
    (field : String) (l : LogRecord)
    (h : searchPred term dfrom dto tf field l (joinUser db l) = true) :
    (∀ t, term = some t → t ≠ "" →
      (field = "name" →
        likeContains (searchRowOf l (joinUser db l)).name t = true) ∧
      (field = "id_number" →
        likeContains (searchRowOf l (joinUser db l)).id_number t = true) ∧
      (field = "department" →
        likeContains (searchRowOf l
          (joinUser db l)).department_or_status t = true)) ∧
    (∀ a, dfrom = some a → a ≠ "" →
      sqlStrLe a (searchRowOf l (joinUser db l)).date = true) ∧
    (∀ b, dto = some b → b ≠ "" →
      sqlStrLe (searchRowOf l (joinUser db l)).date b = true) ∧
    (∀ f, tf = some f → f ≠ "" → f ≠ "All" →
      (searchRowOf l (joinUser db l)).user_type = f) := by
  unfold searchPred at h
  simp only [Bool.and_eq_true] at h
  obtain ⟨⟨⟨hA, hB⟩, hC⟩, hD⟩ := h
  refine ⟨?_, ?_, ?_, ?_⟩
  · intro t ht htne
    rw [ht] at hA
    have htf : (t == "") = false := beq_eq_false_iff_ne.mpr htne
    simp only [htf, Bool.false_eq_true, if_false] at hA
    refine ⟨?_, ?_, ?_⟩
    · intro hf
      subst hf
      simp only [beq_self_eq_true, if_true] at hA
      exact hA
    · intro hf
      subst hf
      simp only [show (("id_number" : String) == "name") = false from rfl,
        show (("id_number" : String) == "id_number") = true from rfl,
        Bool.false_eq_true, if_false, if_true] at hA
      cases hju : joinUser db l with
      | none =>
        rw [hju] at hA
        exact absurd hA (by simp)
      | some u =>
        rw [hju] at hA
        exact hA
    · intro hf
      subst hf
      simp only [show (("department" : String) == "name") = false from rfl,
        show (("department" : String) == "id_number") = false from rfl,
        show (("department" : String) == "department") = true from rfl,
        Bool.false_eq_true, if_false, if_true] at hA
      exact hA
  · intro a ha hane
    rw [ha] at hB
    have haf : (a == "") = false := beq_eq_false_iff_ne.mpr hane
    simp only [haf, Bool.false_eq_true, if_false] at hB
    exact hB
  · intro b hb hbne
    rw [hb] at hC
    have hbf : (b == "") = false := beq_eq_false_iff_ne.mpr hbne
    simp only [hbf, Bool.false_eq_true, if_false] at hC
    exact hC
  · intro f hf hfne hfAll
    rw [hf] at hD
    have hf1 : (f == "") = false := beq_eq_false_iff_ne.mpr hfne
    have hf2 : (f == "All") = false := beq_eq_false_iff_ne.mpr hfAll
    simp only [hf1, hf2, Bool.or_self, Bool.false_eq_true, if_false] at hD
    cases hju : joinUser db l with
    | none =>
      rw [hju] at hD
      exact absurd hD (by simp)
    | some u =>
      rw [hju] at hD
      show u.user_type = f
      exact beq_iff_eq.mp hD

/-! # Claim C8 -/

/-- C8, counterexample: SQLite `LIKE` is ASCII-case-insensitive, so a
search for the term "A" on the name field returns a visit whose name
"alice" does NOT contain "A" as a substring — the returned rows are not
characterised by literal substring match. -/
theorem search_substring_counterexample :
    ((search_logs
        ⟨[], [⟨1, "alice", "2021-1", "CS", "c", "Student", "q", "r"⟩],
          [⟨1, some 1, "alice", "CS", ⟨9, 0, 0⟩, none, none,
            "2024-01-05"⟩], 1, 2, 2⟩
        (some "A") none none none "name").map fun r => r.name) =
      ["alice"] ∧
    ¬ List.IsInfix ("A" : String).data ("alice" : String).data := by
  refine ⟨by decide, by decide⟩

/-- C8, amended: every returned visit satisfies the conjunction of the
supplied filters — `LIKE '%term%'` (ASCII-case-insensitive pattern
match, not literal substring match) on the chosen field when a non-empty
term is given, `date` within the inclusive range for whichever bounds
are given, joined user type exactly equal to the category filter unless
it is "" or the "All" sentinel — each filter independently omittable,
and the result is ordered descending by log id; in particular a search
with the January 2024 range and category "Student" returns only rows
with user type "Student" and date in range, regardless of term. -/
theorem search_logs_spec :
    (∀ db term dfrom dto tf field r,
      r ∈ search_logs db term dfrom dto tf field →
      (∀ t, term = some t → t ≠ "" →
        (field = "name" → likeContains r.name t = true) ∧
        (field = "id_number" → likeContains r.id_number t = true) ∧
        (field = "department" →
          likeContains r.department_or_status t = true)) ∧
      (∀ a, dfrom = some a → a ≠ "" → sqlStrLe a r.date = true) ∧
      (∀ b, dto = some b → b ≠ "" → sqlStrLe r.date b = true) ∧
      (∀ f, tf = some f → f ≠ "" → f ≠ "All" → r.user_type = f)) ∧
    (∀ db term dfrom dto tf field,
      (search_logs db term dfrom dto tf field).Pairwise
        fun a b => b.log_id ≤ a.log_id) ∧
    (∀ db term field r,
      r ∈ search_logs db term (some "2024-01-01") (some "2024-01-31")
        (some "Student") field →
      r.user_type = "Student" ∧ sqlStrLe "2024-01-01" r.date = true ∧
      sqlStrLe r.date "2024-01-31" = true) := by
  have hmain : ∀ db term dfrom dto tf field r,
      r ∈ search_logs db term dfrom dto tf field →
      (∀ t, term = some t → t ≠ "" →
        (field = "name" → likeContains r.name t = true) ∧
        (field = "id_number" → likeContains r.id_number t = true) ∧
        (field = "department" →
          likeContains r.department_or_status t = true)) ∧
      (∀ a, dfrom = some a → a ≠ "" → sqlStrLe a r.date = true) ∧
      (∀ b, dto = some b → b ≠ "" → sqlStrLe r.date b = true) ∧
      (∀ f, tf = some f → f ≠ "" → f ≠ "All" → r.user_type = f) := by
    intro db term dfrom dto tf field r hr
    obtain ⟨l, -, hpred, hrow⟩ :=
      search_logs_mem db term dfrom dto tf field r hr
    rw [hrow]
    exact searchRow_conds db term dfrom dto tf field l hpred
  refine ⟨hmain, ?_, ?_⟩
  · intro db term dfrom dto tf field
    haveI : IsTotal SearchRow rowDescOrder :=
      ⟨fun a b => le_total b.log_id a.log_id⟩
    haveI : IsTrans SearchRow rowDescOrder :=
      ⟨fun a b c hab hbc => le_trans hbc hab⟩
    exact List.sorted_insertionSort rowDescOrder _
  · intro db term field r hr
    obtain ⟨-, hfrom, hto, htype⟩ :=
      hmain db term (some "2024-01-01") (some "2024-01-31")
        (some "Student") field r hr
    exact ⟨htype "Student" rfl (by decide) (by decide),
      hfrom "2024-01-01" rfl (by decide),
      hto "2024-01-31" rfl (by decide)⟩

/-- C8, witness: on a concrete two-row ledger, a January-2024 Student
search returns exactly the Student row, whose fields satisfy the
guarantees of the specification theorem. -/
theorem search_logs_spec_witness :
    ∃ r, r ∈ search_logs
        ⟨[], [⟨1, "alice", "2021-1", "CS", "c", "Student", "q", "r"⟩,
              ⟨2, "bob", "Guest", "Guest", "c", "Guest", "q", "r"⟩],
          [⟨1, some 1, "alice", "CS", ⟨9, 0, 0⟩, none, none,
            "2024-01-05"⟩,
           ⟨2, some 2, "bob", "Guest", ⟨9, 5, 0⟩, none, none,
            "2024-02-05"⟩], 1, 3, 3⟩
        none (some "2024-01-01") (some "2024-01-31") (some "Student")
        "name" ∧
      r.user_type = "Student" ∧ sqlStrLe "2024-01-01" r.date = true ∧
      sqlStrLe r.date "2024-01-31" = true := by
  refine ⟨searchRowOf
      ⟨1, some 1, "alice", "CS", ⟨9, 0, 0⟩, none, none, "2024-01-05"⟩
      (some ⟨1, "alice", "2021-1", "CS", "c", "Student", "q", "r"⟩),
    ?hmem, ?_⟩
  case hmem => decide
  exact search_logs_spec.2.2
    ⟨[], [⟨1, "alice", "2021-1", "CS", "c", "Student", "q", "r"⟩,
          ⟨2, "bob", "Guest", "Guest", "c", "Guest", "q", "r"⟩],
      [⟨1, some 1, "alice", "CS", ⟨9, 0, 0⟩, none, none, "2024-01-05"⟩,
       ⟨2, some 2, "bob", "Guest", ⟨9, 5, 0⟩, none, none, "2024-02-05"⟩],
      1, 3, 3⟩
    none "name" _ (by decide)

end Aliblog
